import Mathlib

/-!
Verification development for the single-file forwarding proxy `app.py`
(Flask app "server_light"): target resolution, allowlist enforcement,
outbound header construction, CORS header attachment, upstream error
handling and response relay, shallowly embedded as executable Lean
definitions.  Machine behaviour of library calls (urllib.parse, werkzeug
header maps, query parsing) is embedded for the fragment the program
exercises; each definition's doc comment names the Python source it
translates.
-/

/-- ASCII lowercase of a character list, modelling Python `str.lower`
restricted to ASCII (the allowlist alphabet is ASCII; `Char.toLower`
maps exactly the letters A-Z). -/
def listLower (l : List Char) : List Char := l.map Char.toLower

/-- ASCII lowercase of a string. -/
def lowerStr (s : String) : String := String.mk (listLower s.data)

/-- Python `str.endswith`: the second string is a suffix of the first. -/
def strEndsWith (s suffix : String) : Bool := suffix.data.isSuffixOf s.data

/-- Python `c in s` for a single character. -/
def strContains (s : String) (c : Char) : Bool := s.data.contains c

/-- Value of a hex digit, `none` for other characters. -/
def hexVal (c : Char) : Option Nat :=
  if '0' ≤ c ∧ c ≤ '9' then some (c.toNat - '0'.toNat)
  else if 'a' ≤ c ∧ c ≤ 'f' then some (c.toNat - 'a'.toNat + 10)
  else if 'A' ≤ c ∧ c ≤ 'F' then some (c.toNat - 'A'.toNat + 10)
  else none

/-- Python `urllib.parse.unquote` at character level: a percent sign
followed by two hex digits decodes to that code point, anything else is
kept verbatim (matching CPython, which leaves invalid escapes in place).
CPython additionally recombines consecutive decoded bytes as UTF-8; for
escapes of bytes below 0x80 (all inputs in this development) the two
agree. -/
def unquoteList : List Char → List Char
  | [] => []
  | '%' :: a :: b :: rest =>
    match hexVal a, hexVal b with
    | some ha, some hb => Char.ofNat (16 * ha + hb) :: unquoteList rest
    | _, _ => '%' :: unquoteList (a :: b :: rest)
  | c :: rest => c :: unquoteList rest

/-- Python `urllib.parse.unquote` on strings. -/
def unquote (s : String) : String := String.mk (unquoteList s.data)

/-- Werkzeug form decoding of one query component: `+` becomes a space,
then percent decoding. -/
def unquotePlus (s : String) : String :=
  String.mk (unquoteList (s.data.map (fun c => if c = '+' then ' ' else c)))

/-- Python `str.strip` whitespace set (the ASCII part: space, tab,
newline, carriage return, vertical tab, form feed). -/
def isPySpace (c : Char) : Bool :=
  c = ' ' ∨ c = '\t' ∨ c = '\n' ∨ c = '\r' ∨ c.val = 11 ∨ c.val = 12

/-- Python `str.strip`: drop that whitespace from both ends. -/
def pyStrip (s : String) : String :=
  String.mk (((s.data.dropWhile isPySpace).reverse.dropWhile isPySpace).reverse)

/-- Split a character list at every ampersand, as query-string field
splitting does. -/
def splitAmp : List Char → List (List Char)
  | [] => [[]]
  | c :: rest =>
    let r := splitAmp rest
    if c = '&' then [] :: r
    else
      match r with
      | h :: t => (c :: h) :: t
      | [] => [[c]]

/-- Split at the first equals sign: `some (key, value)` when present. -/
def splitFirstEq : List Char → Option (List Char × List Char)
  | [] => none
  | c :: rest =>
    if c = '=' then some ([], rest)
    else
      match splitFirstEq rest with
      | some (a, b) => some (c :: a, b)
      | none => none

/-- Werkzeug query-string parsing as Flask `request.args` sees it:
fields split on `&`, empty fields skipped, each field split at the first
`=` (a field with no `=` maps to the empty value), keys and values
decoded with plus-and-percent decoding. -/
def parseQS (qs : String) : List (String × String) :=
  (splitAmp qs.data).filterMap fun pair =>
    if pair = [] then none
    else
      match splitFirstEq pair with
      | some (k, v) => some (unquotePlus (String.mk k), unquotePlus (String.mk v))
      | none => some (unquotePlus (String.mk pair), "")

/-- Flask `request.args.get(name, "")`: first value for the key, empty
string when absent. -/
def argsGet (qs : String) (name : String) : String :=
  (((parseQS qs).find? (fun p => p.1 == name)).map Prod.snd).getD ""

/-- Result of CPython `urllib.parse.urlsplit` restricted to the fields
the program reads: the (lowercased) scheme and the raw netloc. -/
structure SplitResult where
  scheme : String
  netloc : String
deriving Repr, DecidableEq

/-- Characters legal in a scheme after the first (CPython
`scheme_chars`): ASCII letters, digits, plus, minus, dot. -/
def isSchemeChar (c : Char) : Bool :=
  c.isAlpha || c.isDigit || c == '+' || c == '-' || c == '.'

/-- Index of the first colon. -/
def findColon : List Char → Option Nat
  | [] => none
  | c :: rest => if c = ':' then some 0 else (findColon rest).map (· + 1)

/-- CPython `urllib.parse.urlsplit` (scheme and netloc fragment, as in
current 3.11-era CPython): strip leading C0 controls and spaces, remove
tab, carriage return and newline everywhere, split off a valid scheme
before the first colon and lowercase it, take the netloc after `//` up
to the first `/`, `?` or `#`, and raise `ValueError` on an unbalanced
bracket in the netloc.  The NFKC netloc check (which can only fire on
certain non-ASCII netlocs) is not modelled. -/
def pyUrlsplit (url : String) : Except String SplitResult :=
  let u := ((url.data.dropWhile (fun c => c.val ≤ 32)).filter
    (fun c => !(c == '\t' || c == '\r' || c == '\n')))
  let schemeRest : List Char × List Char :=
    match findColon u with
    | some i =>
      if i > 0 ∧ (match u with | c :: _ => c.isAlpha | [] => false) = true
          ∧ (u.take i).all isSchemeChar = true
      then (listLower (u.take i), u.drop (i + 1))
      else ([], u)
    | none => ([], u)
  match schemeRest.2 with
  | '/' :: '/' :: r =>
    let netloc := r.takeWhile (fun c => !(c == '/' || c == '?' || c == '#'))
    if (netloc.contains '[' : Bool) ≠ (netloc.contains ']' : Bool) then
      Except.error "Invalid IPv6 URL"
    else Except.ok { scheme := String.mk schemeRest.1, netloc := String.mk netloc }
  | _ => Except.ok { scheme := String.mk schemeRest.1, netloc := "" }

/-- Part of a character list after the last `@` (CPython
`netloc.rpartition(chr(64))[2]`; the whole list when there is none). -/
def afterLastAt (l : List Char) : List Char :=
  ((l.reverse.takeWhile (fun c => !(c == '@'))).reverse)

/-- Part after the first occurrence of a character (`partition`, third
component; empty when the character is absent). -/
def afterFirst (c : Char) : List Char → List Char
  | [] => []
  | x :: rest => if x = c then rest else afterFirst c rest

/-- Part before the first occurrence of a character. -/
def takeUntil (c : Char) (l : List Char) : List Char :=
  l.takeWhile (fun x => !(x == c))

/-- Host part of a netloc, CPython `SplitResult._hostinfo`: after the
last `@`; for a bracketed host the part between the brackets, otherwise
up to the first colon. -/
def rawHostOf (netloc : List Char) : List Char :=
  let hostinfo := afterLastAt netloc
  if hostinfo.contains '[' then takeUntil ']' (afterFirst '[' hostinfo)
  else takeUntil ':' hostinfo

/-- CPython `SplitResult.hostname`: `none` for an empty host, otherwise
the host lowercased before any `%` (an IPv6 zone id keeps its case). -/
def pyHostname (netloc : String) : Option String :=
  let h := rawHostOf netloc.data
  if h = [] then none
  else
    let pre := takeUntil '%' h
    some (String.mk (listLower pre ++ h.drop pre.length))

/-- Port substring of a netloc, CPython `SplitResult._hostinfo`. -/
def rawPortOf (netloc : List Char) : List Char :=
  let hostinfo := afterLastAt netloc
  if hostinfo.contains '[' then
    afterFirst ':' (afterFirst ']' (afterFirst '[' hostinfo))
  else afterFirst ':' hostinfo

/-- CPython `SplitResult.port`: `none` when absent, the decimal value
when it is all digits and at most 65535, `ValueError` otherwise (the
sign, whitespace and underscore forms accepted by Python `int` are not
modelled; the program only feeds it operator-configured proxy URLs). -/
def pyPort (netloc : String) : Except String (Option Nat) :=
  let p := rawPortOf netloc.data
  if p = [] then Except.ok none
  else if p.all (fun c => c.isDigit) then
    let n := p.foldl (fun acc c => 10 * acc + (c.toNat - '0'.toNat)) 0
    if n ≤ 65535 then Except.ok (some n)
    else Except.error "Port out of range 0-65535"
  else Except.error "Port could not be cast to integer value"

/-- `ALLOWED_EXACT` from app.py line 15. -/
def ALLOWED_EXACT : List String := ["api.mercadolibre.com"]

/-- `ALLOWED_SUFFIXES` from app.py line 16. -/
def ALLOWED_SUFFIXES : List String := [".mercadolivre.com.br", ".mercadolibre.com"]

/-- `is_allowed` from app.py lines 72-80: parse the target, deny any
scheme other than http or https, admit an exact allowlisted hostname or
one ending in an allowlisted dot-prefixed suffix; any parse error is
caught and denies.  Total by construction, so it never raises. -/
def is_allowed (target : String) : Bool :=
  match pyUrlsplit target with
  | Except.error _ => false
  | Except.ok u =>
    if u.scheme = "http" ∨ u.scheme = "https" then
      let host := lowerStr ((pyHostname u.netloc).getD "")
      if host ∈ ALLOWED_EXACT then true
      else ALLOWED_SUFFIXES.any (fun suf => strEndsWith host suf)
    else false

/-- `_mask_proxy` from app.py lines 110-117: scheme, host and optional
port of the proxy URL, empty string when parsing raises. -/
def _mask_proxy (url : String) : String :=
  match pyUrlsplit url with
  | Except.error _ => ""
  | Except.ok u =>
    match pyPort u.netloc with
    | Except.error _ => ""
    | Except.ok p =>
      let host := (pyHostname u.netloc).getD ""
      let portPart := match p with
        | some n => if n ≠ 0 then ":" ++ toString n else ""
        | none => ""
      u.scheme ++ "://" ++ host ++ portPart


/-- Case-insensitive header lookup, as werkzeug header maps implement
`get`: first pair whose name matches case-insensitively. -/
def getHeaderCI : List (String × String) → String → Option String
  | [], _ => none
  | (k, v) :: rest, name =>
    if lowerStr k = lowerStr name then some v else getHeaderCI rest name

/-- Remove every pair whose name matches case-insensitively. -/
def removeCI : List (String × String) → String → List (String × String)
  | [], _ => []
  | (k', v') :: rest, k =>
    if lowerStr k' = lowerStr k then removeCI rest k
    else (k', v') :: removeCI rest k

/-- Werkzeug `resp.headers[k] = v`: replace the first case-insensitive
match in place, drop later duplicates, append when absent. -/
def setHeaderCI : List (String × String) → String → String → List (String × String)
  | [], k, v => [(k, v)]
  | (k', v') :: rest, k, v =>
    if lowerStr k' = lowerStr k then (k, v) :: removeCI rest k
    else (k', v') :: setHeaderCI rest k v

/-- Python plain-dict assignment `d[k] = v` (case sensitive): replace in
place or append. -/
def dictSet : List (String × String) → String → String → List (String × String)
  | [], k, v => [(k, v)]
  | (k', v') :: rest, k, v =>
    if k' = k then (k, v) :: rest else (k', v') :: dictSet rest k v

/-- Static configuration of app.py lines 18-30 (the fields the request
path reads): forward-auth flag, static proxy flag and URL, outbound
user agent. -/
structure Config where
  forwardAuth : Bool
  useProxy : Bool
  proxyUrl : String
  userAgent : String
deriving Repr, DecidableEq

/-- The documented default configuration: every flag off
(`LR_FORWARD_AUTH` and `LR_USE_PROXY` default to "0"). -/
def defaultConfig : Config :=
  { forwardAuth := false, useProxy := false, proxyUrl := "",
    userAgent := "Mozilla/5.0 (Windows NT 10.0; Win64; x64) AppleWebKit/537.36 (KHTML, like Gecko) Chrome/120.0.0.0 Safari/537.36" }

/-- `PROXIES` from app.py line 26: a static proxy only when the flag is
on and the URL nonempty. -/
def proxies (cfg : Config) : Option String :=
  if cfg.useProxy ∧ cfg.proxyUrl ≠ "" then some cfg.proxyUrl else none

/-- An inbound GET or HEAD request as the handler sees it: the method,
the path remainder `raw` bound by the route (empty for the root route),
the raw query string, and the header list. -/
structure Request where
  method : String
  raw : String
  queryString : String
  headers : List (String × String)
deriving Repr, DecidableEq

/-- `request.headers.get(chr(79) :: ...)` for Origin, used by add_cors. -/
def originOf (req : Request) : Option String := getHeaderCI req.headers "Origin"

/-- `DEFAULT_OUT_HEADERS` from app.py lines 33-40. -/
def DEFAULT_OUT_HEADERS (cfg : Config) : List (String × String) :=
  [("User-Agent", cfg.userAgent),
   ("Accept", "*/*"),
   ("Accept-Language", "pt-BR,pt;q=0.9,en-US;q=0.8,en;q=0.7"),
   ("Connection", "keep-alive")]

/-- `FORWARD_INBOUND` from app.py lines 42-46. -/
def FORWARD_INBOUND : List String :=
  ["Accept", "Accept-Language", "User-Agent", "Range", "If-None-Match",
   "If-Modified-Since", "Cache-Control", "Pragma", "Content-Type"]

/-- `HOP_BY_HOP` from app.py lines 48-51. -/
def HOP_BY_HOP : List String :=
  ["connection", "keep-alive", "proxy-authenticate", "proxy-authorization",
   "te", "trailers", "transfer-encoding", "upgrade"]

/-- Response-header allowlist from app.py lines 213-214. -/
def RELAY_ALLOW : List String :=
  ["content-type", "cache-control", "etag", "last-modified",
   "content-range", "accept-ranges", "location", "vary", "content-length"]

/-- One step of the forwarding loop of app.py lines 176-178: copy an
inbound header over the defaults when present and nonempty (`if v:`). -/
def applyForward (reqHeaders : List (String × String))
    (acc : List (String × String)) (k : String) : List (String × String) :=
  match getHeaderCI reqHeaders k with
  | some v => if v = "" then acc else dictSet acc k v
  | none => acc

/-- Outbound header construction, app.py lines 175-183: defaults, then
the fixed forwardable names, then Authorization only behind the flag.
The second component models the local variable `auth_fwd`: `true` means
the code assigned it (it is only ever assigned `True`), `false` means it
was left unbound. -/
def buildOutHeaders (cfg : Config) (reqHeaders : List (String × String)) :
    List (String × String) × Bool :=
  let out := FORWARD_INBOUND.foldl (applyForward reqHeaders) (DEFAULT_OUT_HEADERS cfg)
  if cfg.forwardAuth then
    match getHeaderCI reqHeaders "Authorization" with
    | some v => if v = "" then (out, false) else (dictSet out "Authorization" v, true)
    | none => (out, false)
  else (out, false)

/-- Response body: text for the usage and rejection strings, a JSON
object (modelled structurally, as jsonify emits it with sorted keys)
for the 502 payload, raw bytes for a relayed upstream body. -/
inductive Body where
  | text : String → Body
  | json : List (String × String) → Body
  | bytes : List Nat → Body
deriving Repr, DecidableEq

/-- A Flask response as the handler builds it: status, header list and
body. -/
structure FlaskResponse where
  status : Nat
  headers : List (String × String)
  body : Body
deriving Repr, DecidableEq

/-- `Response(body, status)` with the Flask default mimetype. -/
def textResponse (body : String) (status : Nat) : FlaskResponse :=
  { status := status, headers := [("Content-Type", "text/html; charset=utf-8")],
    body := Body.text body }

/-- Header changes of `add_cors` (app.py lines 82-108) applied to a
header list: echo a truthy Origin (else the wildcard), credentials only
when an Origin was echoed, then the static method, header, expose,
max-age and vary values. -/
def addCorsHeaders (origin : Option String) (h : List (String × String)) :
    List (String × String) :=
  let originVal : Option String :=
    match origin with
    | some o => if o = "" then none else some o
    | none => none
  let h1 := setHeaderCI h "Access-Control-Allow-Origin" (originVal.getD "*")
  let h2 := setHeaderCI h1 "Access-Control-Allow-Credentials"
    (if originVal.isSome then "true" else "false")
  let h3 := setHeaderCI h2 "Access-Control-Allow-Methods" "PUT, GET, POST, DELETE, OPTIONS"
  let h4 := setHeaderCI h3 "Access-Control-Allow-Headers"
    "Content-Type, Authorization, If-None-Match, If-Modified-Since, Range, Cache-Control, Pragma"
  let h5 := setHeaderCI h4 "Access-Control-Expose-Headers"
    "content-type,content-length,connection,date,access-control-max-age,x-api-server-segment,x-content-type-options,x-request-id,strict-transport-security,x-frame-options,x-xss-protection,access-control-allow-origin,access-control-allow-headers,access-control-allow-methods,x-cache,via,x-amz-cf-pop,x-amz-cf-id,X-Proxy-Final-Url,X-Proxy-Fwd-Query,X-Proxy-Static,X-Proxy-Auth"
  let h6 := setHeaderCI h5 "Access-Control-Max-Age" "86400"
  setHeaderCI h6 "Vary" "Origin, Access-Control-Request-Headers, Access-Control-Request-Method"

/-- `add_cors` from app.py lines 82-108: only the header list changes. -/
def add_cors (origin : Option String) (r : FlaskResponse) : FlaskResponse :=
  { r with headers := addCorsHeaders origin r.headers }

/-- A captured upstream response (`requests` response object): status,
headers, body bytes and the final URL after redirects. -/
structure UpstreamResponse where
  status : Nat
  headers : List (String × String)
  content : List Nat
  finalUrl : String
deriving Repr, DecidableEq

/-- Outcome of the outbound call: a response, or a raised transport
exception with its message. -/
inductive UpstreamResult where
  | success : UpstreamResponse → UpstreamResult
  | failure : String → UpstreamResult
deriving Repr, DecidableEq

/-- What the handler produces: a response handed to Flask, or a Python
exception escaping the handler (Flask then serves its generic 500 page,
without the CORS or debug headers). -/
inductive HandlerResult where
  | ok : FlaskResponse → HandlerResult
  | unboundLocalError : HandlerResult
deriving Repr, DecidableEq

/-- Handler result together with the number of upstream calls issued
through the shared session. -/
structure HandlerOutcome where
  result : HandlerResult
  upstreamCalls : Nat
deriving Repr, DecidableEq

/-- Relay condition of app.py lines 210-214: skip hop-by-hop names,
copy only the fixed response allowlist, matched on the lowercased
name. -/
def relayCond (k : String) : Bool :=
  if lowerStr k ∈ HOP_BY_HOP then false
  else decide (lowerStr k ∈ RELAY_ALLOW)

/-- The header-copy loop of app.py lines 209-215 over the upstream
header list, starting from the headers the fresh `Response` already
carries. -/
def relay_fold (init : List (String × String)) (upHeaders : List (String × String)) :
    List (String × String) :=
  upHeaders.foldl
    (fun acc kv => if relayCond kv.1 then setHeaderCI acc kv.1 kv.2 else acc) init

/-- Usage hint returned when no target was supplied (app.py line 164). -/
def usageBody : String := "OK - use /https://<url> ou ?u=<url>"

/-- Target resolution, app.py lines 152-161: a nonempty path remainder
is percent-decoded and the original query string re-appended (`&` when
the decoded target already has a `?`, else `?`); otherwise the `u`
query parameter, stripped.  Also returns the `qs` value kept for the
debug header. -/
def resolve_target (req : Request) : String × String :=
  if req.raw ≠ "" then
    let target := unquote req.raw
    let qs := req.queryString
    if qs ≠ "" then
      (target ++ (if strContains target '?' then "&" else "?") ++ qs, qs)
    else (target, qs)
  else (pyStrip (argsGet req.queryString "u"), "")

/-- `light_proxy` from app.py lines 144-224, with the upstream call an
explicit oracle argument: resolve the target, return the usage hint when
empty, reject disallowed hosts with 400, otherwise build outbound
headers and consult the upstream.  A transport exception yields the 502
JSON response when `auth_fwd` was assigned, and an escaping
`UnboundLocalError` when it was not (app.py line 201 reads it
unconditionally); a response is relayed with filtered headers, debug
headers, and CORS headers. -/
def light_proxy (cfg : Config) (req : Request) (up : UpstreamResult) : HandlerOutcome :=
  if (resolve_target req).1 = "" then
    { result := HandlerResult.ok (add_cors (originOf req) (textResponse usageBody 200)),
      upstreamCalls := 0 }
  else if is_allowed (resolve_target req).1 = true then
    let authFwd := (buildOutHeaders cfg req.headers).2
    match up with
    | UpstreamResult.failure e =>
      if authFwd then
        let h0 : List (String × String) := [("Content-Type", "application/json")]
        let h1 := if (proxies cfg).isSome
          then setHeaderCI h0 "X-Proxy-Static" (_mask_proxy cfg.proxyUrl) else h0
        let h2 := setHeaderCI h1 "X-Proxy-Auth" "1"
        { result := HandlerResult.ok (add_cors (originOf req)
            { status := 502, headers := h2,
              body := Body.json [("detail", e), ("error", "upstream_error")] }),
          upstreamCalls := 1 }
      else { result := HandlerResult.unboundLocalError, upstreamCalls := 1 }
    | UpstreamResult.success r =>
      let h0 := relay_fold [("Content-Type", "text/html; charset=utf-8")] r.headers
      let h1 := setHeaderCI h0 "X-Proxy-Final-Url" r.finalUrl
      let h2 := if req.raw ≠ ""
        then setHeaderCI h1 "X-Proxy-Fwd-Query" (resolve_target req).2 else h1
      let h3 := if (proxies cfg).isSome
        then setHeaderCI h2 "X-Proxy-Static" (_mask_proxy cfg.proxyUrl) else h2
      { result := HandlerResult.ok (add_cors (originOf req)
          { status := r.status, headers := h3,
            body := if req.method = "GET" then Body.bytes r.content else Body.bytes [] }),
        upstreamCalls := 1 }
  else
    { result := HandlerResult.ok (add_cors (originOf req)
        (textResponse "Host não permitido" 400)),
      upstreamCalls := 0 }

/-- Concrete query-style GET request for an allowed target. -/
def reqQueryStyle : Request :=
  { method := "GET", raw := "",
    queryString := "u=https://api.mercadolibre.com/items/MLB1", headers := [] }

/-- Concrete path-style GET request: percent-encoded target plus an own
query string. -/
def reqPathStyle : Request :=
  { method := "GET", raw := "https%3A%2F%2Fapi.mercadolibre.com%2Fitems%2FMLB123",
    queryString := "x=1", headers := [] }

/-- Concrete request for a disallowed host. -/
def reqEvil : Request :=
  { method := "GET", raw := "", queryString := "u=http://evil.com/anything",
    headers := [] }

/-- Concrete request carrying an Origin header with an empty value and
no target. -/
def reqEmptyOrigin : Request :=
  { method := "GET", raw := "", queryString := "", headers := [("Origin", "")] }

/-- Concrete request with no target at all. -/
def reqNoTarget : Request :=
  { method := "GET", raw := "", queryString := "", headers := [] }

/-- Concrete query-style request whose `u` value itself contains a
question mark. -/
def reqSearch : Request :=
  { method := "GET", raw := "",
    queryString := "u=https://api.mercadolibre.com/sites/MLB/search?q=tv",
    headers := [] }

/-- Concrete HEAD request for an allowed target. -/
def reqHead : Request :=
  { method := "HEAD", raw := "",
    queryString := "u=https://api.mercadolibre.com/items/MLB1", headers := [] }

/-- Concrete upstream response with a nonempty body and a mix of
relayable, hop-by-hop and unlisted headers. -/
def upSample : UpstreamResponse :=
  { status := 203,
    headers := [("Content-Type", "application/json"), ("X-Request-Id", "7"),
      ("Transfer-Encoding", "chunked"), ("ETag", "W4")],
    content := [104, 105],
    finalUrl := "https://api.mercadolibre.com/items/MLB1" }

/-- Concrete upstream header list with pairwise distinct lowercased
names. -/
def upHeadersSample : List (String × String) :=
  [("Content-Type", "application/json"), ("X-Request-Id", "7"),
   ("Transfer-Encoding", "chunked"), ("ETag", "W4"), ("Vary", "Accept")]

/-- Looking a name up after removing another name: removal of a
different name is invisible, removal of the same name yields nothing. -/
theorem getCI_removeCI (d : List (String × String)) (k name : String) :
    getHeaderCI (removeCI d k) name =
      if lowerStr k = lowerStr name then none else getHeaderCI d name := by
  induction d with
  | nil => simp [removeCI, getHeaderCI]
  | cons p rest ih =>
    obtain ⟨k', v'⟩ := p
    by_cases h1 : lowerStr k' = lowerStr k
    · by_cases h2 : lowerStr k = lowerStr name
      · simp [removeCI, getHeaderCI, h1, h2, ih]
      · have h3 : lowerStr k' ≠ lowerStr name := by rw [h1]; exact h2
        simp [removeCI, getHeaderCI, h1, h2, h3, ih]
    · by_cases h2 : lowerStr k' = lowerStr name
      · by_cases h3 : lowerStr k = lowerStr name
        · exact absurd (h3 ▸ h2) h1
        · have h4 : lowerStr name ≠ lowerStr k := fun h => h3 h.symm
          simp [removeCI, getHeaderCI, h1, h2, h3, h4]
      · simp [removeCI, getHeaderCI, h1, h2, ih]

/-- Looking a name up after a case-insensitive set: the new value when
the names match case-insensitively, the old lookup otherwise. -/
theorem getCI_setCI (d : List (String × String)) (k v name : String) :
    getHeaderCI (setHeaderCI d k v) name =
      if lowerStr k = lowerStr name then some v else getHeaderCI d name := by
  induction d with
  | nil => simp [setHeaderCI, getHeaderCI]
  | cons p rest ih =>
    obtain ⟨k', v'⟩ := p
    by_cases h1 : lowerStr k' = lowerStr k
    · by_cases h2 : lowerStr k = lowerStr name
      · simp [setHeaderCI, getHeaderCI, h1, h2]
      · have h3 : lowerStr k' ≠ lowerStr name := by rw [h1]; exact h2
        simp [setHeaderCI, getHeaderCI, h1, h2, h3, getCI_removeCI]
    · by_cases h2 : lowerStr k' = lowerStr name
      · have h3 : lowerStr k ≠ lowerStr name := by
          intro h; exact h1 (h2.trans h.symm)
        have h4 : lowerStr name ≠ lowerStr k := fun h => h3 h.symm
        simp [setHeaderCI, getHeaderCI, h1, h2, h3, h4]
      · simp [setHeaderCI, getHeaderCI, h1, h2, ih]

/-- A case-sensitive dict set of one key does not disturb
case-insensitive lookups of a differently named key. -/
theorem getCI_dictSet_ne (d : List (String × String)) (k v name : String)
    (h : lowerStr k ≠ lowerStr name) :
    getHeaderCI (dictSet d k v) name = getHeaderCI d name := by
  induction d with
  | nil => simp [dictSet, getHeaderCI, h]
  | cons p rest ih =>
    obtain ⟨k', v'⟩ := p
    by_cases h1 : k' = k
    · have h2 : lowerStr k' ≠ lowerStr name := by rw [h1]; exact h
      simp [dictSet, getHeaderCI, h1, h2, h]
    · by_cases h2 : lowerStr k' = lowerStr name
      · simp [dictSet, getHeaderCI, h1, h2]
      · simp [dictSet, getHeaderCI, h1, h2, ih]

/-- A header whose name differs case-insensitively is invisible to a
lookup. -/
theorem getCI_cons_ne (d : List (String × String)) (k v name : String)
    (h : lowerStr k ≠ lowerStr name) :
    getHeaderCI ((k, v) :: d) name = getHeaderCI d name := by
  simp [getHeaderCI, h]

/-- Setting into a list that has no case-insensitive match appends. -/
theorem setCI_no_match (d : List (String × String)) (k v : String)
    (h : ∀ p ∈ d, lowerStr p.1 ≠ lowerStr k) :
    setHeaderCI d k v = d ++ [(k, v)] := by
  induction d with
  | nil => simp [setHeaderCI]
  | cons p rest ih =>
    obtain ⟨k', v'⟩ := p
    have h1 : lowerStr k' ≠ lowerStr k := h (k', v') (List.mem_cons_self _ _)
    simp only [setHeaderCI, if_neg h1, List.cons_append]
    rw [ih (fun q hq => h q (List.mem_cons_of_mem _ hq))]

/-- The admission test of app.py lines 77-78 on an already extracted
lowercased hostname, restated as the disjunction the specification
uses. -/
theorem hostCond_iff (host : String) :
    (if host ∈ ALLOWED_EXACT then true
     else ALLOWED_SUFFIXES.any (fun suf => strEndsWith host suf)) = true ↔
    (host = "api.mercadolibre.com" ∨ strEndsWith host ".mercadolivre.com.br" = true ∨
      strEndsWith host ".mercadolibre.com" = true) := by
  by_cases hm : host ∈ ALLOWED_EXACT
  · simp only [if_pos hm, true_iff]
    left
    simpa [ALLOWED_EXACT] using hm
  · rw [if_neg hm]
    have hne : ¬ host = "api.mercadolibre.com" := by
      intro h; exact hm (by simp [ALLOWED_EXACT, h])
    simp [ALLOWED_SUFFIXES, List.any_cons, List.any_nil, hne]

/-- C1: is_allowed admits a target exactly when it parses with scheme
http or https and its lowercased hostname equals api.mercadolibre.com
or ends with the dot-anchored suffix .mercadolivre.com.br or
.mercadolibre.com; unparsable URLs, other schemes, and hostnames that
merely contain an allowed suffix as an unanchored substring are all
denied, and is_allowed is a total Bool function, so it never raises. -/
theorem is_allowed_characterization :
    (∀ t : String, is_allowed t = true ↔
      ∃ u, pyUrlsplit t = Except.ok u ∧ (u.scheme = "http" ∨ u.scheme = "https") ∧
        (lowerStr ((pyHostname u.netloc).getD "") = "api.mercadolibre.com" ∨
         strEndsWith (lowerStr ((pyHostname u.netloc).getD "")) ".mercadolivre.com.br" = true ∨
         strEndsWith (lowerStr ((pyHostname u.netloc).getD "")) ".mercadolibre.com" = true)) ∧
    is_allowed "http://notmercadolibre.com/a" = false ∧
    is_allowed "https://api.mercadolibre.com.evil.com/x" = false ∧
    is_allowed "ftp://api.mercadolibre.com/x" = false ∧
    is_allowed "http://[x.mercadolibre.com/x" = false := by
  refine ⟨?_, by decide, by decide, by decide, by decide⟩
  intro t
  cases hp : pyUrlsplit t with
  | error e =>
    simp only [is_allowed, hp]
    constructor
    · intro h; cases h
    · rintro ⟨u, hu, -⟩
      exact Except.noConfusion hu
  | ok u =>
    simp only [is_allowed, hp]
    constructor
    · intro h
      by_cases hs : u.scheme = "http" ∨ u.scheme = "https"
      · rw [if_pos hs] at h
        exact ⟨u, rfl, hs, (hostCond_iff _).mp h⟩
      · rw [if_neg hs] at h; cases h
    · rintro ⟨u', hu', hs, hh⟩
      have heq : u = u' := by
        injection hu'
      rw [if_pos (heq ▸ hs)]
      exact (hostCond_iff _).mpr (heq ▸ hh)

/-- C2 (code bug): under the default configuration, where the
forward-auth flag is disabled, a transport exception does not produce
the documented 502 JSON response; line 201 of app.py reads the local
variable auth_fwd, which was never assigned, so the handler itself
raises UnboundLocalError and Flask serves its generic 500 page without
the CORS headers.  The upstream call had already been issued. -/
theorem default_config_upstream_error_crashes :
    light_proxy defaultConfig reqQueryStyle
        (UpstreamResult.failure "ReadTimeout: HTTPSConnectionPool") =
      { result := HandlerResult.unboundLocalError, upstreamCalls := 1 } ∧
    defaultConfig.forwardAuth = false := by
  constructor
  · rfl
  · rfl

/-- C3: with a nonempty path remainder the resolved target is the
percent-decoded remainder and, when the request carried a query string,
that query string is re-appended, joined with a question mark when the
decoded target contains none and with an ampersand otherwise;
concretely, the percent-encoded items URL with query x=1 resolves to
the decoded URL with the query re-attached. -/
theorem path_target_resolution :
    (∀ req : Request, req.raw ≠ "" →
      (resolve_target req).1 =
        (if req.queryString = "" then unquote req.raw
         else if strContains (unquote req.raw) '?' = false then
           unquote req.raw ++ "?" ++ req.queryString
         else unquote req.raw ++ "&" ++ req.queryString)) ∧
    resolve_target reqPathStyle =
      ("https://api.mercadolibre.com/items/MLB123?x=1", "x=1") := by
  constructor
  · intro req hr
    by_cases hq : req.queryString = ""
    · simp [resolve_target, hr, hq]
    · by_cases hc : strContains (unquote req.raw) '?' = true
      · simp [resolve_target, hr, hq, hc]
      · have hc' : strContains (unquote req.raw) '?' = false := by
          cases h : strContains (unquote req.raw) '?'
          · rfl
          · exact absurd h hc
        simp [resolve_target, hr, hq, hc']
  · decide

/-- Witness for the path-resolution theorem at the concrete encoded
request. -/
theorem path_target_resolution_witness :
    reqPathStyle.raw ≠ "" ∧
    (resolve_target reqPathStyle).1 =
      (if reqPathStyle.queryString = "" then unquote reqPathStyle.raw
       else if strContains (unquote reqPathStyle.raw) '?' = false then
         unquote reqPathStyle.raw ++ "?" ++ reqPathStyle.queryString
       else unquote reqPathStyle.raw ++ "&" ++ reqPathStyle.queryString) :=
  ⟨by decide, path_target_resolution.1 reqPathStyle (by decide)⟩

/-- C4: a request whose resolved target fails the allowlist gets the
plain-text 400 rejection, for any configuration and any upstream
behaviour, and the shared session is never invoked (zero upstream
calls). -/
theorem disallowed_host_rejected_without_upstream (cfg : Config) (req : Request)
    (up : UpstreamResult) (h1 : (resolve_target req).1 ≠ "")
    (h2 : is_allowed (resolve_target req).1 = false) :
    light_proxy cfg req up =
      { result := HandlerResult.ok (add_cors (originOf req)
          (textResponse "Host não permitido" 400)),
        upstreamCalls := 0 } ∧
    (add_cors (originOf req) (textResponse "Host não permitido" 400)).status = 400 ∧
    (add_cors (originOf req) (textResponse "Host não permitido" 400)).body =
      Body.text "Host não permitido" := by
  refine ⟨?_, rfl, rfl⟩
  unfold light_proxy
  rw [if_neg h1, if_neg (by simp [h2])]

/-- Witness for the 400-rejection theorem at a concrete disallowed
host. -/
theorem disallowed_host_rejected_without_upstream_witness :
    (resolve_target reqEvil).1 ≠ "" ∧
    is_allowed (resolve_target reqEvil).1 = false ∧
    light_proxy defaultConfig reqEvil (UpstreamResult.failure "never reached") =
      { result := HandlerResult.ok (add_cors (originOf reqEvil)
          (textResponse "Host não permitido" 400)),
        upstreamCalls := 0 } :=
  ⟨by decide, by decide,
    (disallowed_host_rejected_without_upstream defaultConfig reqEvil
      (UpstreamResult.failure "never reached") (by decide) (by decide)).1⟩

/-- C7: a relayed upstream response keeps the upstream status verbatim;
the body is the full upstream byte content for a GET request and empty
for anything else (in particular HEAD), whatever bytes the upstream
sent, and exactly one upstream call is made. -/
theorem relayed_body_and_status (cfg : Config) (req : Request) (ur : UpstreamResponse)
    (h1 : (resolve_target req).1 ≠ "") (h2 : is_allowed (resolve_target req).1 = true) :
    ∃ resp, (light_proxy cfg req (UpstreamResult.success ur)).result =
        HandlerResult.ok resp ∧
      resp.status = ur.status ∧
      resp.body = (if req.method = "GET" then Body.bytes ur.content else Body.bytes []) ∧
      (light_proxy cfg req (UpstreamResult.success ur)).upstreamCalls = 1 := by
  unfold light_proxy
  rw [if_neg h1, if_pos h2]
  exact ⟨_, rfl, rfl, rfl, rfl⟩

/-- Witness for the relay theorem: a HEAD request to an allowed target
whose upstream response has a nonempty body. -/
theorem relayed_body_and_status_witness :
    (resolve_target reqHead).1 ≠ "" ∧
    is_allowed (resolve_target reqHead).1 = true ∧
    ∃ resp, (light_proxy defaultConfig reqHead (UpstreamResult.success upSample)).result =
        HandlerResult.ok resp ∧
      resp.status = upSample.status ∧
      resp.body = (if reqHead.method = "GET" then Body.bytes upSample.content
        else Body.bytes []) ∧
      (light_proxy defaultConfig reqHead (UpstreamResult.success upSample)).upstreamCalls = 1 :=
  ⟨by decide, by decide,
    relayed_body_and_status defaultConfig reqHead upSample (by decide) (by decide)⟩

/-- The inbound-header forwarding fold reads the request headers only
through lookups of the folded names. -/
theorem foldForward_congr (names : List String) (h1 h2 : List (String × String)) :
    ∀ acc, (∀ k ∈ names, getHeaderCI h1 k = getHeaderCI h2 k) →
      List.foldl (applyForward h1) acc names = List.foldl (applyForward h2) acc names := by
  induction names with
  | nil => intro acc _; rfl
  | cons k rest ih =>
    intro acc hk
    have hstep : applyForward h1 acc k = applyForward h2 acc k := by
      unfold applyForward
      rw [hk k (List.mem_cons_self _ _)]
    simp only [List.foldl_cons, hstep]
    exact ih _ (fun q hq => hk q (List.mem_cons_of_mem _ hq))

/-- The forwarding fold never creates a header whose lowercased name
differs from every folded name. -/
theorem foldForward_getCI_other (rh : List (String × String)) (name : String)
    (names : List String) :
    ∀ acc, (∀ k ∈ names, lowerStr k ≠ lowerStr name) →
      getHeaderCI (List.foldl (applyForward rh) acc names) name = getHeaderCI acc name := by
  induction names with
  | nil => intro acc _; rfl
  | cons k rest ih =>
    intro acc hk
    simp only [List.foldl_cons]
    rw [ih _ (fun q hq => hk q (List.mem_cons_of_mem _ hq))]
    unfold applyForward
    cases hv : getHeaderCI rh k with
    | none => rfl
    | some v =>
      by_cases he : v = ""
      · simp [he]
      · simp [he, getCI_dictSet_ne _ _ _ _ (hk k (List.mem_cons_self _ _))]

/-- C5: with the forward-auth flag disabled (the default), the outbound
header set never contains an Authorization header, and the outbound
construction is identical whether or not the caller supplied an inbound
Authorization header. -/
theorem authorization_never_forwarded_by_default (cfg : Config)
    (hcfg : cfg.forwardAuth = false) (h : List (String × String)) (v : String) :
    getHeaderCI (buildOutHeaders cfg h).1 "Authorization" = none ∧
    buildOutHeaders cfg (("Authorization", v) :: h) = buildOutHeaders cfg h := by
  have hnames : ∀ k ∈ FORWARD_INBOUND, lowerStr k ≠ lowerStr "Authorization" := by
    intro k hk
    simp only [FORWARD_INBOUND, List.mem_cons, List.not_mem_nil, or_false] at hk
    rcases hk with rfl | rfl | rfl | rfl | rfl | rfl | rfl | rfl | rfl <;> decide
  constructor
  · unfold buildOutHeaders
    rw [hcfg]
    simp only [Bool.false_eq_true, if_false]
    rw [foldForward_getCI_other h "Authorization" FORWARD_INBOUND
      (DEFAULT_OUT_HEADERS cfg) hnames]
    rfl
  · unfold buildOutHeaders
    rw [hcfg]
    simp only [Bool.false_eq_true, if_false]
    rw [foldForward_congr FORWARD_INBOUND (("Authorization", v) :: h) h
      (DEFAULT_OUT_HEADERS cfg)
      (fun k hk => getCI_cons_ne h "Authorization" v k (Ne.symm (hnames k hk)))]

/-- Witness for the default-config Authorization theorem at a concrete
header list. -/
theorem authorization_never_forwarded_by_default_witness :
    defaultConfig.forwardAuth = false ∧
    getHeaderCI (buildOutHeaders defaultConfig [("Origin", "o")]).1 "Authorization" = none ∧
    buildOutHeaders defaultConfig (("Authorization", "Bearer t") :: [("Origin", "o")]) =
      buildOutHeaders defaultConfig [("Origin", "o")] :=
  ⟨rfl,
    (authorization_never_forwarded_by_default defaultConfig rfl
      [("Origin", "o")] "Bearer t").1,
    (authorization_never_forwarded_by_default defaultConfig rfl
      [("Origin", "o")] "Bearer t").2⟩

/-- C6 counterexample: a request that supplies an Origin header with the
empty value gets Access-Control-Allow-Origin equal to the wildcard, not
to the supplied (empty) Origin value, because add_cors tests Python
truthiness rather than presence. -/
theorem cors_empty_origin_counterexample :
    (light_proxy defaultConfig reqEmptyOrigin (UpstreamResult.failure "unused")).result =
      HandlerResult.ok (add_cors (some "") (textResponse usageBody 200)) ∧
    getHeaderCI reqEmptyOrigin.headers "Origin" = some "" ∧
    getHeaderCI (add_cors (some "") (textResponse usageBody 200)).headers
      "Access-Control-Allow-Origin" = some "*" ∧
    getHeaderCI (add_cors (some "") (textResponse usageBody 200)).headers
      "Access-Control-Allow-Credentials" = some "false" ∧
    (some "*" : Option String) ≠ some "" := by
  refine ⟨rfl, rfl, by decide, by decide, by decide⟩

/-- C6 as amended: every response add_cors produces carries
Access-Control-Allow-Origin equal to the inbound Origin header when a
nonempty one was supplied and the wildcard otherwise, and
Access-Control-Allow-Credentials is true exactly when a nonempty Origin
was echoed; add_cors changes nothing but headers, and every response
the proxy handler returns has passed through add_cors. -/
theorem cors_headers_characterization :
    (∀ (origin : Option String) (r : FlaskResponse),
      getHeaderCI (add_cors origin r).headers "Access-Control-Allow-Origin" =
        some (match origin with
          | some o => if o = "" then "*" else o
          | none => "*") ∧
      getHeaderCI (add_cors origin r).headers "Access-Control-Allow-Credentials" =
        some (match origin with
          | some o => if o = "" then "false" else "true"
          | none => "false") ∧
      (add_cors origin r).status = r.status ∧ (add_cors origin r).body = r.body) ∧
    (∀ (cfg : Config) (req : Request) (up : UpstreamResult) (resp : FlaskResponse),
      (light_proxy cfg req up).result = HandlerResult.ok resp →
      ∃ r0, resp = add_cors (originOf req) r0) := by
  constructor
  · intro origin r
    refine ⟨?_, ?_, rfl, rfl⟩
    · simp only [add_cors, addCorsHeaders, getCI_setCI]
      rw [if_neg (by decide), if_neg (by decide), if_neg (by decide), if_neg (by decide),
        if_neg (by decide), if_neg (by decide), if_pos (by decide)]
      cases origin with
      | none => rfl
      | some o =>
        by_cases ho : o = ""
        · simp [ho]
        · simp [ho]
    · simp only [add_cors, addCorsHeaders, getCI_setCI]
      rw [if_neg (by decide), if_neg (by decide), if_neg (by decide), if_neg (by decide),
        if_neg (by decide), if_pos (by decide)]
      cases origin with
      | none => rfl
      | some o =>
        by_cases ho : o = ""
        · simp [ho]
        · simp [ho]
  · intro cfg req up resp h
    unfold light_proxy at h
    by_cases ht : (resolve_target req).1 = ""
    · rw [if_pos ht] at h
      exact ⟨_, (HandlerResult.ok.inj h).symm⟩
    · rw [if_neg ht] at h
      by_cases ha : is_allowed (resolve_target req).1 = true
      · rw [if_pos ha] at h
        cases up with
        | failure e =>
          by_cases hf : (buildOutHeaders cfg req.headers).2 = true
          · simp only [hf, if_true] at h
            exact ⟨_, (HandlerResult.ok.inj h).symm⟩
          · simp only [Bool.not_eq_true] at hf
            simp only [hf, Bool.false_eq_true, if_false] at h
            exact HandlerResult.noConfusion h
        | success r =>
          exact ⟨_, (HandlerResult.ok.inj h).symm⟩
      · rw [if_neg ha] at h
        exact ⟨_, (HandlerResult.ok.inj h).symm⟩

/-- Witness for the amended CORS theorem at the concrete no-target
request. -/
theorem cors_headers_characterization_witness :
    (light_proxy defaultConfig reqNoTarget (UpstreamResult.failure "unused")).result =
      HandlerResult.ok (add_cors (originOf reqNoTarget) (textResponse usageBody 200)) ∧
    (∃ r0, add_cors (originOf reqNoTarget) (textResponse usageBody 200) =
      add_cors (originOf reqNoTarget) r0) :=
  ⟨rfl, cors_headers_characterization.2 defaultConfig reqNoTarget
    (UpstreamResult.failure "unused") _ rfl⟩

/-- The relay condition of the copy loop equals the specification
conjunction: lowercased name on the response allowlist and not
hop-by-hop. -/
theorem relayCond_eq (k : String) :
    relayCond k = decide (lowerStr k ∈ RELAY_ALLOW ∧ lowerStr k ∉ HOP_BY_HOP) := by
  by_cases h1 : lowerStr k ∈ HOP_BY_HOP
  · simp [relayCond, h1]
  · by_cases h2 : lowerStr k ∈ RELAY_ALLOW
    · simp [relayCond, h1, h2]
    · simp [relayCond, h1, h2]

/-- The header-copy loop, run on upstream headers whose lowercased names
are pairwise distinct and absent from the accumulator, appends exactly
the headers passing the relay condition. -/
theorem relay_fold_append (upH : List (String × String)) :
    ∀ acc, ((upH.map fun kv => lowerStr kv.1).Nodup) →
      (∀ kv ∈ upH, ∀ p ∈ acc, lowerStr p.1 ≠ lowerStr kv.1) →
      relay_fold acc upH = acc ++ upH.filter (fun kv => relayCond kv.1) := by
  induction upH with
  | nil => intro acc _ _; simp [relay_fold]
  | cons kv rest ih =>
    obtain ⟨k, v⟩ := kv
    intro acc hnd hdis
    rw [List.map_cons, List.nodup_cons] at hnd
    obtain ⟨hk, hnd'⟩ := hnd
    have hdis' : ∀ q ∈ rest, ∀ p ∈ acc ++ [(k, v)], lowerStr p.1 ≠ lowerStr q.1 := by
      intro q hq p hp
      rcases List.mem_append.mp hp with hpa | hpe
      · exact hdis q (List.mem_cons_of_mem _ hq) p hpa
      · have hpk : p = (k, v) := by simpa using hpe
        subst hpk
        intro heq
        exact hk (heq ▸ List.mem_map_of_mem (fun kv => lowerStr kv.1) hq)
    by_cases hc : relayCond k = true
    · have hstep : relay_fold acc ((k, v) :: rest) =
          relay_fold (acc ++ [(k, v)]) rest := by
        simp only [relay_fold, List.foldl_cons, hc, if_true]
        rw [setCI_no_match acc k v
          (fun p hp => hdis (k, v) (List.mem_cons_self _ _) p hp)]
      rw [hstep, ih _ hnd' hdis']
      simp [List.filter_cons, hc, List.append_assoc]
    · have hc' : relayCond k = false := by
        cases h : relayCond k
        · rfl
        · exact absurd h hc
      have hstep : relay_fold acc ((k, v) :: rest) = relay_fold acc rest := by
        simp only [relay_fold, List.foldl_cons, hc', Bool.false_eq_true, if_false]
      rw [hstep, ih _ hnd'
        (fun q hq p hp => hdis q (List.mem_cons_of_mem _ hq) p hp)]
      simp [List.filter_cons, hc']

/-- C8: starting from nothing, the headers the relay loop copies are
exactly the upstream headers whose lowercased name is on the fixed
response allowlist and not in the hop-by-hop set (assuming upstream
header names pairwise distinct case-insensitively, as the requests
library guarantees). -/
theorem relayed_headers_exact_filter (up : List (String × String))
    (hnd : (up.map fun kv => lowerStr kv.1).Nodup) :
    relay_fold [] up =
      up.filter (fun kv =>
        decide (lowerStr kv.1 ∈ RELAY_ALLOW ∧ lowerStr kv.1 ∉ HOP_BY_HOP)) := by
  rw [relay_fold_append up [] hnd (by intro kv _ p hp; simp at hp)]
  simp only [List.nil_append]
  exact List.filter_congr (fun kv _ => relayCond_eq kv.1)

/-- Witness for the relay-filter theorem at a concrete upstream header
list. -/
theorem relayed_headers_exact_filter_witness :
    ((upHeadersSample.map fun kv => lowerStr kv.1).Nodup) ∧
    relay_fold [] upHeadersSample =
      upHeadersSample.filter (fun kv =>
        decide (lowerStr kv.1 ∈ RELAY_ALLOW ∧ lowerStr kv.1 ∉ HOP_BY_HOP)) :=
  ⟨by decide, relayed_headers_exact_filter upHeadersSample (by decide)⟩

/-- C9: with an empty path remainder the target is the value of the
query parameter u with surrounding whitespace stripped and no query
re-attachment; the concrete search URL keeps its own question mark
untouched; and an empty resolved target returns the 200 usage message
without any upstream call. -/
theorem query_param_target_resolution :
    (∀ req : Request, req.raw = "" →
      (resolve_target req).1 = pyStrip (argsGet req.queryString "u")) ∧
    resolve_target reqSearch =
      ("https://api.mercadolibre.com/sites/MLB/search?q=tv", "") ∧
    (∀ (cfg : Config) (req : Request) (up : UpstreamResult),
      (resolve_target req).1 = "" →
      light_proxy cfg req up =
        { result := HandlerResult.ok (add_cors (originOf req)
            (textResponse usageBody 200)),
          upstreamCalls := 0 } ∧
      (textResponse usageBody 200).status = 200 ∧
      (textResponse usageBody 200).body = Body.text usageBody) := by
  refine ⟨?_, by decide, ?_⟩
  · intro req hr
    simp [resolve_target, hr]
  · intro cfg req up ht
    refine ⟨?_, rfl, rfl⟩
    unfold light_proxy
    rw [if_pos ht]

/-- Witness for the query-parameter resolution theorem at the concrete
search request and the no-target request. -/
theorem query_param_target_resolution_witness :
    (reqSearch.raw = "" ∧
      (resolve_target reqSearch).1 = pyStrip (argsGet reqSearch.queryString "u")) ∧
    ((resolve_target reqNoTarget).1 = "" ∧
      light_proxy defaultConfig reqNoTarget (UpstreamResult.failure "unused") =
        { result := HandlerResult.ok (add_cors (originOf reqNoTarget)
            (textResponse usageBody 200)),
          upstreamCalls := 0 }) :=
  ⟨⟨rfl, query_param_target_resolution.1 reqSearch rfl⟩,
   ⟨by decide, (query_param_target_resolution.2.2 defaultConfig reqNoTarget
      (UpstreamResult.failure "unused") (by decide)).1⟩⟩

/-- C10: the bare apex hostnames are denied: any target parsing to the
hostname mercadolibre.com or mercadolivre.com.br fails is_allowed,
since the only exact entry is api.mercadolibre.com and each allowed
suffix begins with a dot, so suffix admission needs at least one label
left of the suffix. -/
theorem apex_domains_denied :
    (∀ (t : String) (u : SplitResult), pyUrlsplit t = Except.ok u →
      (lowerStr ((pyHostname u.netloc).getD "") = "mercadolibre.com" ∨
       lowerStr ((pyHostname u.netloc).getD "") = "mercadolivre.com.br") →
      is_allowed t = false) ∧
    is_allowed "https://mercadolibre.com/x" = false ∧
    is_allowed "http://mercadolivre.com.br/" = false := by
  refine ⟨?_, by decide, by decide⟩
  intro t u hp hh
  simp only [is_allowed, hp]
  by_cases hs : u.scheme = "http" ∨ u.scheme = "https"
  · rw [if_pos hs]
    rcases hh with h | h
    · rw [h]; decide
    · rw [h]; decide
  · rw [if_neg hs]

/-- Witness for the apex-denial theorem at the concrete apex URL. -/
theorem apex_domains_denied_witness :
    pyUrlsplit "https://mercadolibre.com/x" =
      Except.ok { scheme := "https", netloc := "mercadolibre.com" } ∧
    lowerStr ((pyHostname (SplitResult.netloc
      { scheme := "https", netloc := "mercadolibre.com" })).getD "") =
      "mercadolibre.com" ∧
    is_allowed "https://mercadolibre.com/x" = false :=
  ⟨rfl, by decide,
    apex_domains_denied.1 "https://mercadolibre.com/x"
      { scheme := "https", netloc := "mercadolibre.com" } rfl (Or.inl (by decide))⟩
